import Mathlib

/-!
Shallow embedding of `matrix8x8.py`, a MicroPython driver for an 8x8 LED
matrix behind an HT16K33 I2C controller, together with proofs about its
framebuffer and transport behaviour.

Modelling conventions:
* A Python `bytearray` is a `List Nat` whose elements are < 256; item
  assignment checks the index first (IndexError -> `none`) and then the
  value range (ValueError -> `none`), as CPython does.
* Python sequence indexing supports negative indices (`xs[-1]` is the last
  element); `pyIndexRes` resolves an `Int` index the way CPython does.
* Every I2C transmission (`self.i2c.send(data, self.addr)`) is recorded as
  a list of bytes; an operation returns its successor state together with
  the list of transmissions it performed, and `none` models an uncaught
  Python exception.
* Machine bytes are `Nat` with explicit masking, exactly as in the Python
  source (Python integers are unbounded; the source masks with `0xFF`).
-/

namespace Matrix8x8Spec

/-- CPython index resolution for a sequence of length `len`: a negative
index `i` refers to position `i + len`; the access fails (IndexError)
unless the resolved position lies in `[0, len)`. -/
def pyIndexRes (len : Nat) (i : Int) : Option Nat :=
  let j : Int := if i < 0 then i + len else i
  if 0 ≤ j ∧ j < (len : Int) then some j.toNat else none

/-- Python `xs[i]` on a `bytes`/`bytearray`/tuple of length `xs.length`
with an `Int` index. -/
def pyGetI (xs : List Nat) (i : Int) : Option Nat :=
  (pyIndexRes xs.length i).map fun j => xs.getD j 0

/-- Python `xs[i] = v` on a `bytearray`: IndexError when the index does not
resolve, then ValueError unless `0 ≤ v < 256`. -/
def pySetI (xs : List Nat) (i : Int) (v : Nat) : Option (List Nat) :=
  (pyIndexRes xs.length i).bind fun j =>
    if v < 256 then some (xs.set j v) else none

/-- Python `xs[k]` specialised to a nonnegative index, used where the
source indexes with a loop variable of `range(8)` or a running counter
(always nonnegative). Agrees with `pyGetI xs (k : Int)`. -/
def pyGetN (xs : List Nat) (k : Nat) : Option Nat :=
  if k < xs.length then some (xs.getD k 0) else none

/-- Python `xs[k] = v` on a `bytearray`, nonnegative index variant.
Agrees with `pySetI xs (k : Int) v`. -/
def pySetN (xs : List Nat) (k : Nat) (v : Nat) : Option (List Nat) :=
  if k < xs.length then (if v < 256 then some (xs.set k v) else none)
  else none

/-- `rotate_right(byte)` from matrix8x8.py: mask to 8 bits, shift right by
one, and wrap the dropped low bit around to bit 7. -/
def rotate_right (byte : Nat) : Nat :=
  let b := byte &&& 0xFF
  let bit := b &&& 0x01
  let b := b >>> 1
  if bit ≠ 0 then b ||| 0x80 else b

/-- `Matrix8x8.row_addr`: HT16K33 register address of each display row. -/
def row_addr : List Nat := [0x00, 0x02, 0x04, 0x06, 0x08, 0x0A, 0x0C, 0x0E]

/-- Driver state: `_blinking`, the I2C address, the framebuffer `buf`
(a `bytearray(8)` in the source) and the `is_on` flag. -/
structure Matrix8x8 where
  blinking : Nat
  addr : Nat
  buf : List Nat
  is_on : Bool
  deriving DecidableEq

/-- A single I2C transmission: the bytes handed to `i2c.send`. -/
abbrev Msg := List Nat

/-- `_send_row(row)`: transmit `(row_addr[row], rotate_right(buf[row]))`. -/
def send_row (st : Matrix8x8) (row : Int) : Option Msg := do
  let a ← pyGetI row_addr row
  let b ← pyGetI st.buf row
  pure [a, rotate_right b]

/-- The payload built by `_send_buf`: start from `bytearray(16)`, and for
each framebuffer byte write its rotation at index `i`, where `i` starts at
1 and advances by 2.  Writing out of range is an IndexError. -/
def send_buf_data (buf : List Nat) : Option Msg := do
  let r ← buf.foldlM
    (fun (p : List Nat × Nat) byte => do
      let d ← pySetN p.1 p.2 (rotate_right byte)
      pure (d, p.2 + 2))
    (List.replicate 16 0, 1)
  pure r.1

/-- `_clear_column(column)`: for each row, if the column's bit is set in
that row's byte, toggle it off with XOR. -/
def clear_column_buf (buf : List Nat) (column : Nat) : Option (List Nat) :=
  let mask := 0x80 >>> column
  (List.range 8).foldlM
    (fun b row => do
      let v ← pyGetN b row
      if v &&& mask ≠ 0 then pySetN b row (v ^^^ mask) else pure b)
    buf

/-- `_set_column(column, byte)`: clear the column, return early when
`byte == 0`, otherwise walk the rows with a mask that starts at `0x80` and
halves each row; `shift = column - row` decides whether the masked bit is
shifted right (`shift >= 0`) or left (by `abs(shift)`). -/
def set_column_buf (buf : List Nat) (column byte : Nat) : Option (List Nat) := do
  let b0 ← clear_column_buf buf column
  if byte == 0 then pure b0
  else do
    let r ← (List.range 8).foldlM
      (fun (p : List Nat × Nat) row => do
        let mask := p.2
        let v ← pyGetN p.1 row
        let upd := if row ≤ column then (byte &&& mask) >>> (column - row)
                   else (byte &&& mask) <<< (row - column)
        let b ← pySetN p.1 row (v ||| upd)
        pure (b, mask >>> 1))
      (b0, 0x80)
    pure r.1

/-- `on()`: set the flag, then send `0x81 | (blinking << 1)`.  (`on` is a
reserved word in Lean, hence the name.) -/
def display_on (st : Matrix8x8) : Matrix8x8 × List Msg :=
  let st := { st with is_on := true }
  (st, [[0x81 ||| (st.blinking <<< 1)]])

/-- `off()`: clear the flag, then send `0x80`. -/
def off (st : Matrix8x8) : Matrix8x8 × List Msg :=
  let st := { st with is_on := false }
  (st, [[0x80]])

/-- `set_brightness(value)`: send `0xE0 | value`.  The source performs no
range check on `value`. -/
def set_brightness (st : Matrix8x8) (value : Nat) : Matrix8x8 × List Msg :=
  (st, [[0xE0 ||| value]])

/-- `set_blinking(mode)`: store the mode; re-issue `on()` only when the
display is currently on. -/
def set_blinking (st : Matrix8x8) (mode : Nat) : Matrix8x8 × List Msg :=
  let st := { st with blinking := mode }
  if st.is_on then display_on st else (st, [])

/-- `set(bitmap)`: `self.buf = bytearray(bitmap)` (ValueError when an
element is outside `[0,256)`; the source performs no length check), then
`_send_buf()`. -/
def set (st : Matrix8x8) (bitmap : List Nat) : Option (Matrix8x8 × List Msg) :=
  if bitmap.all (· < 256) then do
    let st := { st with buf := bitmap }
    let d ← send_buf_data st.buf
    pure (st, [d])
  else none

/-- `clear()`: write 0 into `buf[i]` for `i in range(8)`, then
`_send_buf()`. -/
def clear (st : Matrix8x8) : Option (Matrix8x8 × List Msg) := do
  let b ← (List.range 8).foldlM (fun b i => pySetN b i 0) st.buf
  let st := { st with buf := b }
  let d ← send_buf_data st.buf
  pure (st, [d])

/-- `set_row(row, byte)`: `buf[row] = byte`, then `_send_row(row)`. -/
def set_row (st : Matrix8x8) (row : Int) (byte : Nat) :
    Option (Matrix8x8 × List Msg) := do
  let b ← pySetI st.buf row byte
  let st := { st with buf := b }
  let m ← send_row st row
  pure (st, [m])

/-- `clear_row(row)`: `set_row(row, 0)`. -/
def clear_row (st : Matrix8x8) (row : Int) : Option (Matrix8x8 × List Msg) :=
  set_row st row 0

/-- `set_column(column, byte)`: `_set_column`, then `_send_buf()`. -/
def set_column (st : Matrix8x8) (column byte : Nat) :
    Option (Matrix8x8 × List Msg) := do
  let b ← set_column_buf st.buf column byte
  let st := { st with buf := b }
  let d ← send_buf_data st.buf
  pure (st, [d])

/-- `clear_column(column)`: `_clear_column`, then `_send_buf()`. -/
def clear_column (st : Matrix8x8) (column : Nat) :
    Option (Matrix8x8 × List Msg) := do
  let b ← clear_column_buf st.buf column
  let st := { st with buf := b }
  let d ← send_buf_data st.buf
  pure (st, [d])

/-- `set_pixel(row, column)`: `buf[row] |= 0x80 >> column` (a read followed
by a write), then `_send_row(row)`. -/
def set_pixel (st : Matrix8x8) (row : Int) (column : Nat) :
    Option (Matrix8x8 × List Msg) := do
  let v ← pyGetI st.buf row
  let b ← pySetI st.buf row (v ||| (0x80 >>> column))
  let st := { st with buf := b }
  let m ← send_row st row
  pure (st, [m])

/-- `clear_pixel(row, column)`: `buf[row] &= ~(0x80 >> column)`.  For
nonnegative Python ints, `v & ~mask` keeps exactly the bits of `v` outside
`mask`; since the bits of `v &&& mask` are a subset of the bits of `v`,
that is the subtraction `v - (v &&& mask)`. Then `_send_row(row)`. -/
def clear_pixel (st : Matrix8x8) (row : Int) (column : Nat) :
    Option (Matrix8x8 × List Msg) := do
  let v ← pyGetI st.buf row
  let b ← pySetI st.buf row (v - (v &&& (0x80 >>> column)))
  let st := { st with buf := b }
  let m ← send_row st row
  pure (st, [m])

/-- The effect of one `_clear_column` loop iteration on a single row byte:
toggle the mask bit off when it is set. -/
def clearbit (v mask : Nat) : Nat := if v &&& mask ≠ 0 then v ^^^ mask else v

/-- The byte OR'd into row `k` by the `_set_column(column, byte)` loop: the
loop mask at row `k` is `0x80 >> k`, and `shift = column - k` picks the
direction. -/
def colbit (column byte k : Nat) : Nat :=
  if k ≤ column then (byte &&& (0x80 >>> k)) >>> (column - k)
  else (byte &&& (0x80 >>> k)) <<< (k - column)

/-- The 16-byte full-buffer payload as a closed form: position `i` holds
`rotate_right(buf[i / 2])` when `i` is odd and `0` when `i` is even. -/
def full_payload (xs : List Nat) : List Nat :=
  (List.range 16).map fun i =>
    if i % 2 = 1 then rotate_right (xs.getD (i / 2) 0) else 0

/-- Read a byte back out of column `c`: row `k`'s column bit contributes
bit position `k` counted from the most significant bit. -/
def column_readback (xs : List Nat) (c : Nat) : Nat :=
  (List.range 8).foldl
    (fun acc k =>
      if xs.getD k 0 &&& (0x80 >>> c) ≠ 0 then acc ||| (0x80 >>> k) else acc)
    0

/-- A sample driver state: display on, framebuffer cleared, default
address, no blinking — the state right after `__init__` finishes. -/
def st0 : Matrix8x8 :=
  { blinking := 0, addr := 0x70, buf := List.replicate 8 0, is_on := true }

/-- A sample driver state with a non-trivial framebuffer. -/
def st1 : Matrix8x8 :=
  { blinking := 2, addr := 0x70,
    buf := [0x12, 0x34, 0x56, 0x78, 0x9A, 0xBC, 0xDE, 0xF0], is_on := false }

/-!  Helper lemmas. -/

theorem length_eight_dest (xs : List Nat) (h8 : xs.length = 8) :
    ∃ a0 a1 a2 a3 a4 a5 a6 a7, xs = [a0, a1, a2, a3, a4, a5, a6, a7] := by
  rcases xs with _ | ⟨a0, xs⟩; · simp at h8
  rcases xs with _ | ⟨a1, xs⟩; · simp at h8
  rcases xs with _ | ⟨a2, xs⟩; · simp at h8
  rcases xs with _ | ⟨a3, xs⟩; · simp at h8
  rcases xs with _ | ⟨a4, xs⟩; · simp at h8
  rcases xs with _ | ⟨a5, xs⟩; · simp at h8
  rcases xs with _ | ⟨a6, xs⟩; · simp at h8
  rcases xs with _ | ⟨a7, xs⟩; · simp at h8
  rcases xs with _ | ⟨a8, xs⟩
  · exact ⟨a0, a1, a2, a3, a4, a5, a6, a7, rfl⟩
  · simp [List.length_cons] at h8

theorem lt256_iff (x : Nat) : x < 256 ↔ x < 2 ^ 8 := by norm_num

theorem shiftRight_le_self (m n : Nat) : m >>> n ≤ m := by
  rw [Nat.shiftRight_eq_div_pow]
  exact Nat.div_le_self m (2 ^ n)

@[simp] theorem rotate_right_lt (b : Nat) : rotate_right b < 256 := by
  simp only [rotate_right]
  have h1 : b &&& 0xFF < 256 := by
    rw [lt256_iff]; exact Nat.and_lt_two_pow b (by norm_num)
  have h2 : (b &&& 0xFF) >>> 1 < 256 :=
    Nat.lt_of_le_of_lt (shiftRight_le_self _ _) h1
  split
  · rw [lt256_iff]
    exact Nat.or_lt_two_pow ((lt256_iff _).mp h2) (by norm_num)
  · exact h2

@[simp] theorem colmask_lt (c : Nat) : 0x80 >>> c < 256 :=
  Nat.lt_of_le_of_lt (shiftRight_le_self _ _) (by norm_num)

theorem clearbit_lt (v mask : Nat) (hv : v < 256) (hm : mask < 256) :
    clearbit v mask < 256 := by
  unfold clearbit
  split
  · rw [lt256_iff]
    exact Nat.xor_lt_two_pow ((lt256_iff _).mp hv) ((lt256_iff _).mp hm)
  · exact hv

set_option maxRecDepth 8192 in
theorem colbit_lt : ∀ c < 8, ∀ b < 256, ∀ k < 8, colbit c b k < 256 := by
  decide

theorem pyIndexRes_ofNat (len k : Nat) :
    pyIndexRes len (k : Int) = if k < len then some k else none := by
  simp only [pyIndexRes]
  rw [if_neg (show ¬ ((k : Int) < 0) by omega)]
  by_cases h : k < len
  · rw [if_pos ⟨by omega, by omega⟩, if_pos h]
    simp
  · rw [if_neg (by omega), if_neg h]

theorem pyGetN_eq (xs : List Nat) (k : Nat) (hk : k < xs.length) :
    pyGetN xs k = some (xs.getD k 0) := by
  unfold pyGetN; rw [if_pos hk]

theorem pySetN_eq (xs : List Nat) (k v : Nat) (hk : k < xs.length)
    (hv : v < 256) : pySetN xs k v = some (xs.set k v) := by
  unfold pySetN; rw [if_pos hk, if_pos hv]

theorem pyGetI_ofNat (xs : List Nat) (k : Nat) (hk : k < xs.length) :
    pyGetI xs (k : Int) = some (xs.getD k 0) := by
  unfold pyGetI; rw [pyIndexRes_ofNat, if_pos hk]; rfl

theorem pySetI_ofNat (xs : List Nat) (k v : Nat) (hk : k < xs.length)
    (hv : v < 256) : pySetI xs (k : Int) v = some (xs.set k v) := by
  unfold pySetI; rw [pyIndexRes_ofNat, if_pos hk]
  exact if_pos hv

theorem pySetI_length (xs : List Nat) (i : Int) (v : Nat) (ys : List Nat)
    (h : pySetI xs i v = some ys) : ys.length = xs.length := by
  unfold pySetI at h
  rcases Option.bind_eq_some.mp h with ⟨j, _, h2⟩
  split at h2
  · cases h2; exact List.length_set xs j v
  · cases h2

theorem pySetN_length (xs : List Nat) (k v : Nat) (ys : List Nat)
    (h : pySetN xs k v = some ys) : ys.length = xs.length := by
  unfold pySetN at h
  split at h
  · split at h
    · cases h; exact List.length_set xs k v
    · cases h
  · cases h

theorem set_getD_self (l : List Nat) (i : Nat) (h : i < l.length) :
    l.set i (l.getD i 0) = l := by
  apply List.ext_getElem (by simp)
  intro j h1 h2
  rw [List.getElem_set]
  split
  · next hij =>
    subst hij
    rw [List.getD_eq_getElem?_getD, List.getElem?_eq_getElem h]
    rfl
  · rfl

theorem foldlM_option_inv {σ α : Type} (P : σ → Prop) (f : σ → α → Option σ)
    (hf : ∀ b a b2, P b → f b a = some b2 → P b2) :
    ∀ (l : List α) (b b2 : σ), P b → List.foldlM f b l = some b2 → P b2 := by
  intro l
  induction l with
  | nil =>
    intro b b2 hP h
    rw [List.foldlM_nil] at h
    cases h; exact hP
  | cons a l ih =>
    intro b b2 hP h
    rw [List.foldlM_cons] at h
    rcases Option.bind_eq_some.mp h with ⟨b1, h1, h2⟩
    exact ih b1 b2 (hf b a b1 hP h1) h2

theorem range8_eq : List.range 8 = [0, 1, 2, 3, 4, 5, 6, 7] := by
  decide

/-- The full-buffer payload of an 8-row framebuffer: rotations land at the
odd positions `1, 3, ..., 15`, the even positions stay `0`. -/
theorem send_buf_data_eq (xs : List Nat) (h8 : xs.length = 8) :
    send_buf_data xs = some (full_payload xs) := by
  obtain ⟨a0, a1, a2, a3, a4, a5, a6, a7, rfl⟩ := length_eight_dest xs h8
  simp [send_buf_data, full_payload, pySetN, List.foldlM_cons, List.foldlM_nil,
        List.set, List.getD, List.range, List.range.loop]

/-- `clear()` on an 8-row framebuffer: zero every row and transmit an
all-zero 16-byte payload. -/
theorem clear_eq (st : Matrix8x8) (h8 : st.buf.length = 8) :
    clear st = some ({ st with buf := List.replicate 8 0 },
      [List.replicate 16 0]) := by
  obtain ⟨bl, ad, bf, io⟩ := st
  simp only at h8
  obtain ⟨a0, a1, a2, a3, a4, a5, a6, a7, rfl⟩ := length_eight_dest bf h8
  simp [clear, send_buf_data, pySetN, List.foldlM_cons, List.foldlM_nil,
        List.set, List.getD, List.range, List.range.loop, rotate_right,
        List.replicate]

/-- One iteration of the `_clear_column` loop. -/
theorem clear_col_step (b : List Nat) (mask row : Nat)
    (hrow : row < b.length) (hv : b.getD row 0 < 256) (hm : mask < 256) :
    ((pyGetN b row).bind fun v =>
      if v &&& mask ≠ 0 then pySetN b row (v ^^^ mask) else pure b)
      = some (b.set row (clearbit (b.getD row 0) mask)) := by
  rw [pyGetN_eq b row hrow]
  show (if b.getD row 0 &&& mask ≠ 0
        then pySetN b row (b.getD row 0 ^^^ mask) else pure b) = _
  unfold clearbit
  split
  · exact pySetN_eq b row _ hrow (by
      rw [lt256_iff]
      exact Nat.xor_lt_two_pow ((lt256_iff _).mp hv) ((lt256_iff _).mp hm))
  · show some b = _
    rw [set_getD_self b row hrow]

/-- `_clear_column` on an 8-row framebuffer of bytes applies `clearbit`
with mask `0x80 >> c` to every row. -/
theorem clear_column_buf_eq (xs : List Nat) (c : Nat) (h8 : xs.length = 8)
    (hb : ∀ b ∈ xs, b < 256) :
    clear_column_buf xs c
      = some (xs.map fun v => clearbit v (0x80 >>> c)) := by
  obtain ⟨a0, a1, a2, a3, a4, a5, a6, a7, rfl⟩ := length_eight_dest xs h8
  simp only [List.mem_cons, List.not_mem_nil, or_false, forall_eq_or_imp,
    forall_eq] at hb
  obtain ⟨h0, h1, h2, h3, h4, h5, h6, h7⟩ := hb
  simp only [clear_column_buf, range8_eq, List.foldlM_cons, List.foldlM_nil,
    Option.bind_eq_bind]
  rw [clear_col_step _ _ 0 (by simp) (by simpa using h0) (colmask_lt c)]
  simp only [Option.bind_eq_bind, Option.some_bind, List.set,
    List.getD_cons_zero, List.getD_cons_succ]
  rw [clear_col_step _ _ 1 (by simp) (by simpa using h1) (colmask_lt c)]
  simp only [Option.bind_eq_bind, Option.some_bind, List.set,
    List.getD_cons_zero, List.getD_cons_succ]
  rw [clear_col_step _ _ 2 (by simp) (by simpa using h2) (colmask_lt c)]
  simp only [Option.bind_eq_bind, Option.some_bind, List.set,
    List.getD_cons_zero, List.getD_cons_succ]
  rw [clear_col_step _ _ 3 (by simp) (by simpa using h3) (colmask_lt c)]
  simp only [Option.bind_eq_bind, Option.some_bind, List.set,
    List.getD_cons_zero, List.getD_cons_succ]
  rw [clear_col_step _ _ 4 (by simp) (by simpa using h4) (colmask_lt c)]
  simp only [Option.bind_eq_bind, Option.some_bind, List.set,
    List.getD_cons_zero, List.getD_cons_succ]
  rw [clear_col_step _ _ 5 (by simp) (by simpa using h5) (colmask_lt c)]
  simp only [Option.bind_eq_bind, Option.some_bind, List.set,
    List.getD_cons_zero, List.getD_cons_succ]
  rw [clear_col_step _ _ 6 (by simp) (by simpa using h6) (colmask_lt c)]
  simp only [Option.bind_eq_bind, Option.some_bind, List.set,
    List.getD_cons_zero, List.getD_cons_succ]
  rw [clear_col_step _ _ 7 (by simp) (by simpa using h7) (colmask_lt c)]
  simp [List.set, List.getD]

theorem set_col_step (b : List Nat) (column byte m row : Nat)
    (hrow : row < b.length) (hv : b.getD row 0 < 256)
    (hupd : (if row ≤ column then (byte &&& m) >>> (column - row)
             else (byte &&& m) <<< (row - column)) < 256) :
    ((pyGetN b row).bind fun v =>
      (pySetN b row (v ||| if row ≤ column then (byte &&& m) >>> (column - row)
          else (byte &&& m) <<< (row - column))).bind
        fun b2 => pure (b2, m >>> 1))
    = some (b.set row (b.getD row 0 |||
        (if row ≤ column then (byte &&& m) >>> (column - row)
         else (byte &&& m) <<< (row - column))), m >>> 1) := by
  rw [pyGetN_eq b row hrow, Option.some_bind]
  rw [pySetN_eq b row _ hrow (by
    rw [lt256_iff]
    exact Nat.or_lt_two_pow ((lt256_iff _).mp hv) ((lt256_iff _).mp hupd))]
  rfl

theorem set_column_buf_eq (xs : List Nat) (c B : Nat) (hc : c < 8)
    (hB : B < 256) (h8 : xs.length = 8) (hb : ∀ b ∈ xs, b < 256) :
    set_column_buf xs c B
      = some ((List.range 8).map fun k =>
          clearbit (xs.getD k 0) (0x80 >>> c) ||| colbit c B k) := by
  obtain ⟨a0, a1, a2, a3, a4, a5, a6, a7, rfl⟩ := length_eight_dest xs h8
  have hbl := hb
  simp only [List.mem_cons, List.not_mem_nil, or_false, forall_eq_or_imp,
    forall_eq] at hbl
  obtain ⟨h0, h1, h2, h3, h4, h5, h6, h7⟩ := hbl
  simp only [set_column_buf, range8_eq, List.foldlM_cons, List.foldlM_nil,
    Option.bind_eq_bind]
  rw [clear_column_buf_eq _ c h8 hb, Option.some_bind]
  by_cases hB0 : B = 0
  · rw [if_pos (by simp [hB0])]
    simp [hB0, colbit, clearbit]
  · rw [if_neg (by simp [hB0])]
    simp only [List.map]
    rw [set_col_step _ c B _ 0 (by simp)
      (by simpa using clearbit_lt a0 _ h0 (colmask_lt c))
      (by simpa [colbit] using colbit_lt c hc B hB 0 (by norm_num))]
    simp only [Option.some_bind, List.set, List.getD_cons_zero, List.getD_cons_succ]
    rw [set_col_step _ c B _ 1 (by simp)
      (by simpa using clearbit_lt a1 _ h1 (colmask_lt c))
      (by simpa [colbit] using colbit_lt c hc B hB 1 (by norm_num))]
    simp only [Option.some_bind, List.set, List.getD_cons_zero, List.getD_cons_succ]
    rw [set_col_step _ c B _ 2 (by simp)
      (by simpa using clearbit_lt a2 _ h2 (colmask_lt c))
      (by simpa [colbit] using colbit_lt c hc B hB 2 (by norm_num))]
    simp only [Option.some_bind, List.set, List.getD_cons_zero, List.getD_cons_succ]
    rw [set_col_step _ c B _ 3 (by simp)
      (by simpa using clearbit_lt a3 _ h3 (colmask_lt c))
      (by simpa [colbit] using colbit_lt c hc B hB 3 (by norm_num))]
    simp only [Option.some_bind, List.set, List.getD_cons_zero, List.getD_cons_succ]
    rw [set_col_step _ c B _ 4 (by simp)
      (by simpa using clearbit_lt a4 _ h4 (colmask_lt c))
      (by simpa [colbit] using colbit_lt c hc B hB 4 (by norm_num))]
    simp only [Option.some_bind, List.set, List.getD_cons_zero, List.getD_cons_succ]
    rw [set_col_step _ c B _ 5 (by simp)
      (by simpa using clearbit_lt a5 _ h5 (colmask_lt c))
      (by simpa [colbit] using colbit_lt c hc B hB 5 (by norm_num))]
    simp only [Option.some_bind, List.set, List.getD_cons_zero, List.getD_cons_succ]
    rw [set_col_step _ c B _ 6 (by simp)
      (by simpa using clearbit_lt a6 _ h6 (colmask_lt c))
      (by simpa [colbit] using colbit_lt c hc B hB 6 (by norm_num))]
    simp only [Option.some_bind, List.set, List.getD_cons_zero, List.getD_cons_succ]
    rw [set_col_step _ c B _ 7 (by simp)
      (by simpa using clearbit_lt a7 _ h7 (colmask_lt c))
      (by simpa [colbit] using colbit_lt c hc B hB 7 (by norm_num))]
    simp [colbit]

theorem getD_set_self (l : List Nat) (i v : Nat) (h : i < l.length) :
    (l.set i v).getD i 0 = v := by
  rw [List.getD_eq_getElem?_getD,
    List.getElem?_eq_getElem (by simpa using h)]
  simp [List.getElem_set_self]

theorem getD_set_ne (l : List Nat) (i j v : Nat) (hij : i ≠ j) :
    (l.set i v).getD j 0 = l.getD j 0 := by
  rw [List.getD_eq_getElem?_getD, List.getD_eq_getElem?_getD,
    List.getElem?_set_ne hij]

/-- `set(bitmap)` with an 8-byte bitmap of bytes: replace the framebuffer
and transmit one full-buffer payload. -/
theorem set_eq (st : Matrix8x8) (bitmap : List Nat) (h8 : bitmap.length = 8)
    (hb : ∀ b ∈ bitmap, b < 256) :
    set st bitmap = some ({ st with buf := bitmap }, [full_payload bitmap]) := by
  unfold set
  rw [if_pos (by simpa [List.all_eq_true] using hb)]
  simp only [Option.bind_eq_bind]
  rw [send_buf_data_eq bitmap h8]
  rfl

/-- `set_row(r, b)` at a nonnegative row index `r < 8`. -/
theorem set_row_eq_nat (st : Matrix8x8) (r b : Nat) (hr : r < 8)
    (h8 : st.buf.length = 8) (hb : b < 256) :
    set_row st (r : Int) b = some ({ st with buf := st.buf.set r b },
      [[row_addr.getD r 0, rotate_right b]]) := by
  unfold set_row send_row
  rw [pySetI_ofNat st.buf r b (by omega) hb]
  simp only [Option.bind_eq_bind, Option.some_bind]
  rw [pyGetI_ofNat row_addr r (by simp [row_addr]; omega), Option.some_bind]
  rw [pyGetI_ofNat (st.buf.set r b) r (by simp; omega), Option.some_bind]
  rw [getD_set_self st.buf r b (by omega)]
  rfl

/-- `set_pixel(r, c)` at a nonnegative row index `r < 8`: OR the column
mask into row `r` and transmit that row. -/
theorem set_pixel_eq (st : Matrix8x8) (r c : Nat) (hr : r < 8)
    (h8 : st.buf.length = 8) (hv : st.buf.getD r 0 < 256) :
    set_pixel st (r : Int) c
      = some ({ st with buf := st.buf.set r (st.buf.getD r 0 ||| (0x80 >>> c)) },
        [[row_addr.getD r 0,
          rotate_right (st.buf.getD r 0 ||| (0x80 >>> c))]]) := by
  unfold set_pixel send_row
  rw [pyGetI_ofNat st.buf r (by omega)]
  simp only [Option.bind_eq_bind, Option.some_bind]
  rw [pySetI_ofNat st.buf r _ (by omega) (by
    rw [lt256_iff]
    exact Nat.or_lt_two_pow ((lt256_iff _).mp hv)
      ((lt256_iff _).mp (colmask_lt c)))]
  simp only [Option.some_bind]
  rw [pyGetI_ofNat row_addr r (by simp [row_addr]; omega), Option.some_bind]
  rw [pyGetI_ofNat _ r (by simp; omega), Option.some_bind]
  rw [getD_set_self st.buf r _ (by omega)]
  rfl

/-- `clear_pixel(r, c)` at a nonnegative row index `r < 8`: AND row `r`
with the complement of the column mask and transmit that row. -/
theorem clear_pixel_eq (st : Matrix8x8) (r c : Nat) (hr : r < 8)
    (h8 : st.buf.length = 8) (hv : st.buf.getD r 0 < 256) :
    clear_pixel st (r : Int) c
      = some ({ st with
          buf := st.buf.set r
            (st.buf.getD r 0 - (st.buf.getD r 0 &&& (0x80 >>> c))) },
        [[row_addr.getD r 0,
          rotate_right
            (st.buf.getD r 0 - (st.buf.getD r 0 &&& (0x80 >>> c)))]]) := by
  unfold clear_pixel send_row
  rw [pyGetI_ofNat st.buf r (by omega)]
  simp only [Option.bind_eq_bind, Option.some_bind]
  rw [pySetI_ofNat st.buf r _ (by omega)
    (Nat.lt_of_le_of_lt (Nat.sub_le _ _) hv)]
  simp only [Option.some_bind]
  rw [pyGetI_ofNat row_addr r (by simp [row_addr]; omega), Option.some_bind]
  rw [pyGetI_ofNat _ r (by simp; omega), Option.some_bind]
  rw [getD_set_self st.buf r _ (by omega)]
  rfl

/-- `clear_column(c)` on an 8-row framebuffer of bytes. -/
theorem clear_column_eq (st : Matrix8x8) (c : Nat) (h8 : st.buf.length = 8)
    (hb : ∀ b ∈ st.buf, b < 256) :
    clear_column st c
      = some ({ st with buf := st.buf.map fun v => clearbit v (0x80 >>> c) },
        [full_payload (st.buf.map fun v => clearbit v (0x80 >>> c))]) := by
  unfold clear_column
  rw [clear_column_buf_eq st.buf c h8 hb]
  simp only [Option.bind_eq_bind, Option.some_bind]
  rw [send_buf_data_eq _ (by simp [h8])]
  rfl

/-- `set_column(c, B)` on an 8-row framebuffer of bytes. -/
theorem set_column_eq (st : Matrix8x8) (c B : Nat) (hc : c < 8)
    (hB : B < 256) (h8 : st.buf.length = 8) (hb : ∀ b ∈ st.buf, b < 256) :
    set_column st c B
      = some ({ st with buf := ((List.range 8).map fun k =>
            clearbit (st.buf.getD k 0) (0x80 >>> c) ||| colbit c B k) },
        [full_payload ((List.range 8).map fun k =>
            clearbit (st.buf.getD k 0) (0x80 >>> c) ||| colbit c B k)]) := by
  unfold set_column
  rw [set_column_buf_eq st.buf c B hc hB h8 hb]
  simp only [Option.bind_eq_bind, Option.some_bind]
  rw [send_buf_data_eq _ (by simp)]
  rfl

theorem pyIndexRes_neg (len : Nat) (i : Int) (h1 : -(len : Int) ≤ i)
    (h2 : i < 0) : pyIndexRes len i = some (i + len).toNat := by
  simp only [pyIndexRes]
  rw [if_pos h2, if_pos ⟨by omega, by omega⟩]

theorem pyIndexRes_none_iff (len : Nat) (i : Int) :
    pyIndexRes len i = none ↔ (len : Int) ≤ i ∨ i < -(len : Int) := by
  simp only [pyIndexRes]
  by_cases hneg : i < 0
  · rw [if_pos hneg]
    by_cases hin : 0 ≤ i + (len : Int) ∧ i + (len : Int) < (len : Int)
    · rw [if_pos hin]
      constructor
      · intro h; cases h
      · intro h; omega
    · rw [if_neg hin]
      constructor
      · intro _; omega
      · intro _; rfl
  · rw [if_neg hneg]
    by_cases hin : 0 ≤ i ∧ i < (len : Int)
    · rw [if_pos hin]
      constructor
      · intro h; cases h
      · intro h; omega
    · rw [if_neg hin]
      constructor
      · intro _; omega
      · intro _; rfl


/-- `set_row` with a negative row index in `[-8, -1]`: Python indexing
writes row `r + 8` and transmits that row. -/
theorem set_row_eq_neg (st : Matrix8x8) (r : Int) (b : Nat)
    (hr1 : -8 ≤ r) (hr2 : r < 0) (h8 : st.buf.length = 8) (hb : b < 256) :
    set_row st r b = some ({ st with buf := st.buf.set (r + 8).toNat b },
      [[row_addr.getD (r + 8).toNat 0, rotate_right b]]) := by
  have hres : pyIndexRes 8 r = some (r + 8).toNat :=
    pyIndexRes_neg 8 r (by omega) hr2
  have hidx : (r + 8).toNat < 8 := by omega
  unfold set_row send_row pySetI pyGetI
  rw [h8, hres]
  simp only [Option.bind_eq_bind, Option.some_bind]
  rw [if_pos hb]
  simp only [Option.some_bind]
  rw [show Matrix8x8Spec.row_addr.length = 8 from rfl, hres,
    show (st.buf.set (r + 8).toNat b).length = 8 by simp [h8], hres]
  simp only [Option.map_some', Option.some_bind]
  rw [getD_set_self st.buf (r + 8).toNat b (by omega)]
  rfl

/-- `set_row` fails (with Python IndexError) exactly when the row index is
outside `[-8, 7]`. -/
theorem set_row_none_iff (st : Matrix8x8) (r : Int) (b : Nat)
    (h8 : st.buf.length = 8) (hb : b < 256) :
    set_row st r b = none ↔ 7 < r ∨ r < -8 := by
  constructor
  · intro h
    by_contra hcon
    push_neg at hcon
    obtain ⟨hle, hge⟩ := hcon
    by_cases hneg : r < 0
    · rw [set_row_eq_neg st r b (by omega) hneg h8 hb] at h
      cases h
    · have : r = ((r.toNat : Nat) : Int) := by omega
      rw [this, set_row_eq_nat st r.toNat b (by omega) h8 hb] at h
      cases h
  · intro h
    unfold set_row pySetI
    rw [h8, (pyIndexRes_none_iff 8 r).mpr (by omega)]
    rfl

theorem clear_column_buf_length (xs ys : List Nat) (c : Nat)
    (h : clear_column_buf xs c = some ys) : ys.length = xs.length := by
  simp only [clear_column_buf] at h
  refine foldlM_option_inv (fun l => l.length = xs.length) _ ?_ _ xs ys rfl h
  intro b a b2 hP hf
  rcases Option.bind_eq_some.mp hf with ⟨v, _, h2⟩
  split at h2
  · exact (pySetN_length b a _ b2 h2).trans hP
  · cases h2
    exact hP

theorem set_column_buf_length (xs ys : List Nat) (c B : Nat)
    (h : set_column_buf xs c B = some ys) : ys.length = xs.length := by
  simp only [set_column_buf, Option.bind_eq_bind] at h
  rcases Option.bind_eq_some.mp h with ⟨b0, hb0, h2⟩
  have hlen0 : b0.length = xs.length := clear_column_buf_length xs b0 c hb0
  split at h2
  · cases h2
    exact hlen0
  · rcases Option.bind_eq_some.mp h2 with ⟨rp, hrp, h3⟩
    cases h3
    refine foldlM_option_inv (fun p : List Nat × Nat => p.1.length = xs.length)
      _ ?_ _ (b0, 0x80) rp hlen0 hrp
    intro p a p2 hP hf
    rcases Option.bind_eq_some.mp hf with ⟨v, _, hg⟩
    rcases Option.bind_eq_some.mp hg with ⟨b2, hb2, hpure⟩
    cases hpure
    show b2.length = xs.length
    exact (pySetN_length p.1 a _ b2 hb2).trans hP

theorem clear_preserves_length (st : Matrix8x8) (p : Matrix8x8 × List Msg)
    (h : clear st = some p) : p.1.buf.length = st.buf.length := by
  simp only [clear, Option.bind_eq_bind] at h
  rcases Option.bind_eq_some.mp h with ⟨b, hb, h2⟩
  rcases Option.bind_eq_some.mp h2 with ⟨d, _, hpure⟩
  cases hpure
  show b.length = st.buf.length
  refine foldlM_option_inv (fun l => l.length = st.buf.length) _ ?_ _ _ b rfl hb
  intro l a l2 hP hf
  exact (pySetN_length l a 0 l2 hf).trans hP

theorem set_row_preserves_length (st : Matrix8x8) (r : Int) (b : Nat)
    (p : Matrix8x8 × List Msg) (h : set_row st r b = some p) :
    p.1.buf.length = st.buf.length := by
  simp only [set_row, Option.bind_eq_bind] at h
  rcases Option.bind_eq_some.mp h with ⟨l, hl, h2⟩
  rcases Option.bind_eq_some.mp h2 with ⟨m, _, hpure⟩
  cases hpure
  exact pySetI_length st.buf r b l hl

theorem set_column_preserves_length (st : Matrix8x8) (c B : Nat)
    (p : Matrix8x8 × List Msg) (h : set_column st c B = some p) :
    p.1.buf.length = st.buf.length := by
  simp only [set_column, Option.bind_eq_bind] at h
  rcases Option.bind_eq_some.mp h with ⟨l, hl, h2⟩
  rcases Option.bind_eq_some.mp h2 with ⟨d, _, hpure⟩
  cases hpure
  exact set_column_buf_length st.buf l c B hl

theorem clear_column_preserves_length (st : Matrix8x8) (c : Nat)
    (p : Matrix8x8 × List Msg) (h : clear_column st c = some p) :
    p.1.buf.length = st.buf.length := by
  simp only [clear_column, Option.bind_eq_bind] at h
  rcases Option.bind_eq_some.mp h with ⟨l, hl, h2⟩
  rcases Option.bind_eq_some.mp h2 with ⟨d, _, hpure⟩
  cases hpure
  exact clear_column_buf_length st.buf l c hl

theorem set_pixel_preserves_length (st : Matrix8x8) (r : Int) (c : Nat)
    (p : Matrix8x8 × List Msg) (h : set_pixel st r c = some p) :
    p.1.buf.length = st.buf.length := by
  simp only [set_pixel, Option.bind_eq_bind] at h
  rcases Option.bind_eq_some.mp h with ⟨v, _, h2⟩
  rcases Option.bind_eq_some.mp h2 with ⟨l, hl, h3⟩
  rcases Option.bind_eq_some.mp h3 with ⟨m, _, hpure⟩
  cases hpure
  exact pySetI_length st.buf r _ l hl

theorem clear_pixel_preserves_length (st : Matrix8x8) (r : Int) (c : Nat)
    (p : Matrix8x8 × List Msg) (h : clear_pixel st r c = some p) :
    p.1.buf.length = st.buf.length := by
  simp only [clear_pixel, Option.bind_eq_bind] at h
  rcases Option.bind_eq_some.mp h with ⟨v, _, h2⟩
  rcases Option.bind_eq_some.mp h2 with ⟨l, hl, h3⟩
  rcases Option.bind_eq_some.mp h3 with ⟨m, _, hpure⟩
  cases hpure
  exact pySetI_length st.buf r _ l hl

theorem set_buf_is_bitmap (st : Matrix8x8) (bitmap : List Nat)
    (p : Matrix8x8 × List Msg) (h : set st bitmap = some p) :
    p.1.buf = bitmap := by
  simp only [set, Option.bind_eq_bind] at h
  split at h
  · rcases Option.bind_eq_some.mp h with ⟨d, _, hpure⟩
    cases hpure
    rfl
  · cases h

theorem getD_map_lt (f : Nat → Nat) (l : List Nat) (k : Nat)
    (h : k < l.length) : (l.map f).getD k 0 = f (l.getD k 0) := by
  rw [List.getD_eq_getElem?_getD, List.getD_eq_getElem?_getD,
    List.getElem?_map, List.getElem?_eq_getElem h]
  rfl

theorem getD_range_map (f : Nat → Nat) (k : Nat) (h : k < 8) :
    ((List.range 8).map f).getD k 0 = f k := by
  rw [getD_map_lt f _ k (by simpa using h)]
  congr 1
  rw [List.getD_eq_getElem?_getD,
    List.getElem?_eq_getElem (by simpa using h)]
  simp

theorem getD_bound (l : List Nat) (hb : ∀ b ∈ l, b < 256) (k : Nat)
    (h : k < l.length) : l.getD k 0 < 256 := by
  rw [List.getD_eq_getElem?_getD, List.getElem?_eq_getElem h]
  exact hb _ (List.getElem_mem h)

theorem or_and_right_nat (a b m : Nat) :
    (a ||| b) &&& m = (a &&& m) ||| (b &&& m) :=
  Nat.eq_of_testBit_eq fun i => by
    simp only [Nat.testBit_land, Nat.testBit_lor]
    cases a.testBit i <;> cases b.testBit i <;> cases m.testBit i <;> rfl

set_option maxRecDepth 8192 in
theorem clearbit_and_mask :
    ∀ c < 8, ∀ x < 256, clearbit x (0x80 >>> c) &&& (0x80 >>> c) = 0 := by
  decide

set_option maxRecDepth 8192 in
theorem colbit_and_mask : ∀ c < 8, ∀ B < 256, ∀ k < 8,
    (colbit c B k &&& (0x80 >>> c) ≠ 0) = (B &&& (0x80 >>> k) ≠ 0) := by
  decide

set_option maxRecDepth 8192 in
theorem colbit_255_mask : ∀ c < 8, ∀ k < 8,
    colbit c 255 k &&& (0x80 >>> c) = 0x80 >>> c := by
  decide

set_option maxRecDepth 8192 in
theorem clearbit_clears : ∀ c < 8, ∀ x < 256,
    (clearbit x (0x80 >>> c)).testBit (7 - c) = false := by
  decide

set_option maxRecDepth 8192 in
theorem clearbit_other : ∀ c < 8, ∀ x < 256, ∀ j < 8, j ≠ 7 - c →
    (clearbit x (0x80 >>> c)).testBit j = x.testBit j := by
  decide

set_option maxRecDepth 8192 in
theorem or_mask_sets : ∀ c < 8, ∀ x < 256,
    (x ||| (0x80 >>> c)).testBit (7 - c) = true := by
  decide

set_option maxRecDepth 8192 in
theorem or_mask_other : ∀ c < 8, ∀ x < 256, ∀ j < 8, j ≠ 7 - c →
    (x ||| (0x80 >>> c)).testBit j = x.testBit j := by
  decide

set_option maxRecDepth 8192 in
theorem sub_and_mask_clears : ∀ c < 8, ∀ x < 256,
    (x - (x &&& (0x80 >>> c))).testBit (7 - c) = false := by
  decide

set_option maxRecDepth 8192 in
theorem sub_and_mask_other : ∀ c < 8, ∀ x < 256, ∀ j < 8, j ≠ 7 - c →
    (x - (x &&& (0x80 >>> c))).testBit j = x.testBit j := by
  decide

theorem range16_eq :
    List.range 16 = [0, 1, 2, 3, 4, 5, 6, 7, 8, 9, 10, 11, 12, 13, 14, 15] := by
  decide

set_option maxRecDepth 8192 in
/-- C6: `rotate_right` is a bijection on `[0,255]`; applying it 8 times is
the identity there; `rotate_right(0x01) = 0x80` and
`rotate_right(0x80) = 0x40`. -/
theorem C6_rotate_right_props :
    (∀ b < 256, rotate_right b < 256) ∧
    (∀ a < 256, ∀ b < 256, rotate_right a = rotate_right b → a = b) ∧
    (∀ b < 256, ∃ a, a < 256 ∧ rotate_right a = b) ∧
    (∀ b < 256, rotate_right^[8] b = b) ∧
    rotate_right 0x01 = 0x80 ∧ rotate_right 0x80 = 0x40 := by
  have hiter : ∀ b < 256, rotate_right^[8] b = b := by decide
  refine ⟨fun b _ => rotate_right_lt b, ?_, ?_, hiter, by decide, by decide⟩
  · intro a ha b hb h
    have ha8 := hiter a ha
    have hb8 := hiter b hb
    rw [Function.iterate_succ_apply rotate_right 7 a] at ha8
    rw [Function.iterate_succ_apply rotate_right 7 b] at hb8
    rw [← ha8, ← hb8, h]
  · intro b hb
    refine ⟨rotate_right^[7] b, ?_, ?_⟩
    · rw [show (7 : Nat) = 6 + 1 from rfl,
        Function.iterate_succ_apply' rotate_right 6 b]
      exact rotate_right_lt _
    · rw [← Function.iterate_succ_apply' rotate_right 7 b]
      exact hiter b hb

/-- C6 witness: the bijection facts instantiated at concrete bytes. -/
theorem C6_witness :
    rotate_right 5 < 256 ∧ rotate_right^[8] 0xA7 = 0xA7 :=
  ⟨C6_rotate_right_props.1 5 (by norm_num),
   C6_rotate_right_props.2.2.2.1 0xA7 (by norm_num)⟩

/-- C8: `set_blinking(mode)` while the display is on makes exactly one
transport call `0x81 | (mode << 1)`; while off it makes none, and the new
mode reaches hardware on the next `on()`. -/
theorem C8_set_blinking (st : Matrix8x8) (mode : Nat) (hm : mode < 4) :
    (st.is_on = true →
      set_blinking st mode
        = ({ st with blinking := mode }, [[0x81 ||| (mode <<< 1)]])) ∧
    (st.is_on = false →
      set_blinking st mode = ({ st with blinking := mode }, []) ∧
      display_on { st with blinking := mode }
        = ({ st with blinking := mode, is_on := true },
          [[0x81 ||| (mode <<< 1)]])) := by
  obtain ⟨bl, ad, bf, io⟩ := st
  constructor
  · intro h
    simp only at h
    subst h
    simp [set_blinking, display_on]
  · intro h
    simp only at h
    subst h
    exact ⟨by simp [set_blinking], by simp [display_on]⟩

/-- C8 witness: blinking mode 3 while on, mode 1 while off. -/
theorem C8_witness :
    set_blinking st0 3 = ({ st0 with blinking := 3 }, [[0x81 ||| (3 <<< 1)]]) ∧
    set_blinking st1 1 = ({ st1 with blinking := 1 }, []) :=
  ⟨(C8_set_blinking st0 3 (by norm_num)).1 rfl,
   ((C8_set_blinking st1 1 (by norm_num)).2 rfl).1⟩

/-- C9 counterexample: `set_brightness(16)` does not fail — it sends the
single byte `0xE0 | 16 = 0xF0` (one transport call). -/
theorem C9_counterexample :
    set_brightness st0 16 = (st0, [[0xF0]]) ∧
    (set_brightness st0 16).2.length = 1 := by decide

/-- C9 (amended): `set_brightness(v)` performs no range check; for every
byte `v` it immediately sends the single command byte `0xE0 | v`. -/
theorem C9_amended (st : Matrix8x8) (v : Nat) (hv : v < 256) :
    set_brightness st v = (st, [[0xE0 ||| v]]) := rfl

/-- C9 witness: an in-range brightness goes out as `0xE0 | 7 = 0xE7`. -/
theorem C9_witness : set_brightness st1 7 = (st1, [[0xE0 ||| 7]]) :=
  C9_amended st1 7 (by norm_num)

/-- C10: negative row indices in `[-8, -1]` are accepted by `set_row`
(Python indexing: row `r + 8` is written and pushed); `set_row` fails with
IndexError exactly when the row is above 7 or below -8. -/
theorem C10_negative_rows (st : Matrix8x8) (h8 : st.buf.length = 8)
    (r : Int) (b : Nat) (hb : b < 256) :
    (-8 ≤ r → r ≤ -1 →
      set_row st r b = some ({ st with buf := st.buf.set (r + 8).toNat b },
        [[row_addr.getD (r + 8).toNat 0, rotate_right b]])) ∧
    (set_row st r b = none ↔ 7 < r ∨ r < -8) := by
  constructor
  · intro h1 h2
    exact set_row_eq_neg st r b h1 (by omega) h8 hb
  · exact set_row_none_iff st r b h8 hb

/-- C10 witness: `set_row(-3, 171)` writes row 5, and `set_row(9, 5)` is
rejected. -/
theorem C10_witness :
    set_row st1 (-3) 171
      = some ({ st1 with buf := st1.buf.set ((-3 : Int) + 8).toNat 171 },
        [[row_addr.getD ((-3 : Int) + 8).toNat 0, rotate_right 171]]) ∧
    (set_row st1 9 5 = none ↔ 7 < (9 : Int) ∨ (9 : Int) < -8) :=
  ⟨(C10_negative_rows st1 rfl (-3) 171 (by norm_num)).1 (by norm_num)
      (by norm_num),
   (C10_negative_rows st1 rfl 9 5 (by norm_num)).2⟩

/-- C2 counterexample: a 4-byte bitmap is not rejected — `set` succeeds,
replaces the framebuffer with 4 bytes, and performs a push. -/
theorem C2_counterexample :
    set st0 [1, 2, 3, 4]
      = some ({ st0 with buf := [1, 2, 3, 4] },
        [[0, 128, 0, 1, 0, 129, 0, 2, 0, 0, 0, 0, 0, 0, 0, 0]]) := by decide

/-- C2 (amended): for every 8-byte bitmap of bytes, `set` replaces the
framebuffer with exactly those bytes and performs one full-buffer push;
wrong lengths are not rejected by any length check. -/
theorem C2_amended (st : Matrix8x8) (bitmap : List Nat)
    (h8 : bitmap.length = 8) (hb : ∀ b ∈ bitmap, b < 256) :
    set st bitmap = some ({ st with buf := bitmap }, [full_payload bitmap]) ∧
    (full_payload bitmap).length = 16 :=
  ⟨set_eq st bitmap h8 hb, by simp [full_payload]⟩

/-- C2 witness: an 8-byte bitmap goes through. -/
theorem C2_witness :
    set st0 [10, 20, 30, 40, 50, 60, 70, 80]
      = some ({ st0 with buf := [10, 20, 30, 40, 50, 60, 70, 80] },
        [full_payload [10, 20, 30, 40, 50, 60, 70, 80]]) :=
  (C2_amended st0 [10, 20, 30, 40, 50, 60, 70, 80] rfl (by decide)).1

/-- C3 counterexample: `set` with a 4-byte bitmap completes and leaves a
4-byte framebuffer, breaking the 8-byte invariant. -/
theorem C3_counterexample :
    (set st0 [1, 2, 3, 4]).map (fun p => p.1.buf.length) = some 4 ∧
    st0.buf.length = 8 := by decide

/-- C3 (amended): every public operation except `set` preserves the 8-byte
framebuffer length whenever it completes; `set` makes the length equal to
the bitmap length, so it preserves the invariant only for 8-byte input. -/
theorem C3_amended :
    (∀ st p, st.buf.length = 8 → clear st = some p →
      p.1.buf.length = 8) ∧
    (∀ st r b p, st.buf.length = 8 → set_row st r b = some p →
      p.1.buf.length = 8) ∧
    (∀ st r p, st.buf.length = 8 → clear_row st r = some p →
      p.1.buf.length = 8) ∧
    (∀ st c B p, st.buf.length = 8 → set_column st c B = some p →
      p.1.buf.length = 8) ∧
    (∀ st c p, st.buf.length = 8 → clear_column st c = some p →
      p.1.buf.length = 8) ∧
    (∀ st r c p, st.buf.length = 8 → set_pixel st r c = some p →
      p.1.buf.length = 8) ∧
    (∀ st r c p, st.buf.length = 8 → clear_pixel st r c = some p →
      p.1.buf.length = 8) ∧
    (∀ st bm p, set st bm = some p → p.1.buf.length = bm.length) := by
  refine ⟨?_, ?_, ?_, ?_, ?_, ?_, ?_, ?_⟩
  · intro st p h8 h
    rw [clear_preserves_length st p h]
    exact h8
  · intro st r b p h8 h
    rw [set_row_preserves_length st r b p h]
    exact h8
  · intro st r p h8 h
    rw [set_row_preserves_length st r 0 p h]
    exact h8
  · intro st c B p h8 h
    rw [set_column_preserves_length st c B p h]
    exact h8
  · intro st c p h8 h
    rw [clear_column_preserves_length st c p h]
    exact h8
  · intro st r c p h8 h
    rw [set_pixel_preserves_length st r c p h]
    exact h8
  · intro st r c p h8 h
    rw [clear_pixel_preserves_length st r c p h]
    exact h8
  · intro st bm p h
    rw [set_buf_is_bitmap st bm p h]

/-- C3 witness: `clear` on a live state keeps the framebuffer at 8 bytes. -/
theorem C3_witness :
    ({ st1 with buf := List.replicate 8 0 } : Matrix8x8).buf.length = 8 :=
  C3_amended.1 st1 ({ st1 with buf := List.replicate 8 0 },
    [List.replicate 16 0]) rfl (by decide)

/-- C1 counterexample: with the all-on framebuffer the payload byte at the
even index 0 is 0, while `rotate_right(framebuffer[0]) = 255` — so even
indices do not carry the rotated rows. -/
theorem C1_counterexample :
    send_buf_data (List.replicate 8 0xFF)
      = some [0, 255, 0, 255, 0, 255, 0, 255, 0, 255, 0, 255, 0, 255, 0, 255]
    ∧ rotate_right ((List.replicate 8 0xFF).getD 0 0) = 255 := by decide

/-- C1 (amended): the 16-byte full-buffer payload has
`rotate_right(framebuffer[i/2])` at the odd indices `1,3,...,15` and 0 at
the even indices, for every push triggered by `set`, `clear`,
`set_column`, or `clear_column`. -/
theorem C1_amended :
    (∀ xs : List Nat, xs.length = 8 →
      send_buf_data xs = some (full_payload xs)) ∧
    (∀ xs : List Nat, (full_payload xs).length = 16) ∧
    (∀ xs : List Nat, ∀ i, i < 16 → (full_payload xs).getD i 0
        = if i % 2 = 1 then rotate_right (xs.getD (i / 2) 0) else 0) ∧
    (∀ st bm p, bm.length = 8 → (∀ b ∈ bm, b < 256) →
      set st bm = some p → p.2 = [full_payload p.1.buf]) ∧
    (∀ st p, st.buf.length = 8 → clear st = some p →
      p.2 = [full_payload p.1.buf]) ∧
    (∀ st c B p, c < 8 → B < 256 → st.buf.length = 8 →
      (∀ b ∈ st.buf, b < 256) → set_column st c B = some p →
      p.2 = [full_payload p.1.buf]) ∧
    (∀ st c p, st.buf.length = 8 → (∀ b ∈ st.buf, b < 256) →
      clear_column st c = some p → p.2 = [full_payload p.1.buf]) := by
  refine ⟨fun xs h8 => send_buf_data_eq xs h8, ?_, ?_, ?_, ?_, ?_, ?_⟩
  · intro xs
    simp [full_payload]
  · intro xs i hi
    interval_cases i <;> simp [full_payload, range16_eq]
  · intro st bm p h8 hb h
    rw [set_eq st bm h8 hb] at h
    cases h
    rfl
  · intro st p h8 h
    rw [clear_eq st h8] at h
    cases h
    show [List.replicate 16 0] = [full_payload (List.replicate 8 0)]
    decide
  · intro st c B p hc hB h8 hb h
    rw [set_column_eq st c B hc hB h8 hb] at h
    cases h
    rfl
  · intro st c p h8 hb h
    rw [clear_column_eq st c h8 hb] at h
    cases h
    rfl

/-- C1 witness: the payload characterization at a concrete framebuffer. -/
theorem C1_witness :
    send_buf_data [1, 2, 3, 4, 5, 6, 7, 8]
      = some (full_payload [1, 2, 3, 4, 5, 6, 7, 8]) :=
  C1_amended.1 [1, 2, 3, 4, 5, 6, 7, 8] rfl

/-- C7: `set_pixel(r,c)` sets bit `0x80 >> c` of framebuffer row `r` and
`clear_pixel(r,c)` clears it; both leave all other bits of row `r` and all
other rows unchanged. -/
theorem C7_pixel_ops (st : Matrix8x8) (h8 : st.buf.length = 8)
    (hb : ∀ b ∈ st.buf, b < 256) (r c : Nat) (hr : r < 8) (hc : c < 8) :
    (set_pixel st (r : Int) c).isSome = true ∧
    (∀ st2 tr, set_pixel st (r : Int) c = some (st2, tr) →
      (st2.buf.getD r 0).testBit (7 - c) = true ∧
      (∀ j, j < 8 → j ≠ 7 - c →
        (st2.buf.getD r 0).testBit j = (st.buf.getD r 0).testBit j) ∧
      (∀ k, k < 8 → k ≠ r → st2.buf.getD k 0 = st.buf.getD k 0)) ∧
    (clear_pixel st (r : Int) c).isSome = true ∧
    (∀ st2 tr, clear_pixel st (r : Int) c = some (st2, tr) →
      (st2.buf.getD r 0).testBit (7 - c) = false ∧
      (∀ j, j < 8 → j ≠ 7 - c →
        (st2.buf.getD r 0).testBit j = (st.buf.getD r 0).testBit j) ∧
      (∀ k, k < 8 → k ≠ r → st2.buf.getD k 0 = st.buf.getD k 0)) := by
  have hv : st.buf.getD r 0 < 256 := getD_bound st.buf hb r (by omega)
  refine ⟨?_, ?_, ?_, ?_⟩
  · rw [set_pixel_eq st r c hr h8 hv]
    rfl
  · intro st2 tr h
    rw [set_pixel_eq st r c hr h8 hv] at h
    injection h with h'
    injection h' with h1 h2
    subst h1
    refine ⟨?_, ?_, ?_⟩
    · show (((st.buf.set r (st.buf.getD r 0 ||| (0x80 >>> c))).getD
          r 0).testBit (7 - c)) = true
      rw [getD_set_self st.buf r _ (by omega)]
      exact or_mask_sets c hc _ hv
    · intro j hj hne
      show (((st.buf.set r (st.buf.getD r 0 ||| (0x80 >>> c))).getD
          r 0).testBit j) = (st.buf.getD r 0).testBit j
      rw [getD_set_self st.buf r _ (by omega)]
      exact or_mask_other c hc _ hv j hj hne
    · intro k hk hne
      show ((st.buf.set r (st.buf.getD r 0 ||| (0x80 >>> c))).getD k 0)
          = st.buf.getD k 0
      exact getD_set_ne st.buf r k _ (fun he => hne he.symm)
  · rw [clear_pixel_eq st r c hr h8 hv]
    rfl
  · intro st2 tr h
    rw [clear_pixel_eq st r c hr h8 hv] at h
    injection h with h'
    injection h' with h1 h2
    subst h1
    refine ⟨?_, ?_, ?_⟩
    · show (((st.buf.set r
          (st.buf.getD r 0 - (st.buf.getD r 0 &&& (0x80 >>> c)))).getD
          r 0).testBit (7 - c)) = false
      rw [getD_set_self st.buf r _ (by omega)]
      exact sub_and_mask_clears c hc _ hv
    · intro j hj hne
      show (((st.buf.set r
          (st.buf.getD r 0 - (st.buf.getD r 0 &&& (0x80 >>> c)))).getD
          r 0).testBit j) = (st.buf.getD r 0).testBit j
      rw [getD_set_self st.buf r _ (by omega)]
      exact sub_and_mask_other c hc _ hv j hj hne
    · intro k hk hne
      show ((st.buf.set r
          (st.buf.getD r 0 - (st.buf.getD r 0 &&& (0x80 >>> c)))).getD k 0)
          = st.buf.getD k 0
      exact getD_set_ne st.buf r k _ (fun he => hne he.symm)

/-- C7 witness: pixel operations at row 5, column 6 of a live state. -/
theorem C7_witness :
    (set_pixel st1 (5 : Nat) 6).isSome = true ∧
    (clear_pixel st1 (5 : Nat) 6).isSome = true :=
  ⟨(C7_pixel_ops st1 rfl (by decide) 5 6 (by norm_num) (by norm_num)).1,
   (C7_pixel_ops st1 rfl (by decide) 5 6 (by norm_num) (by norm_num)).2.2.1⟩

/-- C5: `set_column(c, 0xFF)` sets bit `0x80 >> c` in every one of the 8
framebuffer rows; `clear_column(c)` clears that bit in every row and
leaves all other bits of every row unchanged. -/
theorem C5_column_ops (st : Matrix8x8) (h8 : st.buf.length = 8)
    (hb : ∀ b ∈ st.buf, b < 256) (c : Nat) (hc : c < 8) :
    (set_column st c 0xFF).isSome = true ∧
    (∀ st2 tr, set_column st c 0xFF = some (st2, tr) →
      ∀ k, k < 8 → st2.buf.getD k 0 &&& (0x80 >>> c) = 0x80 >>> c) ∧
    (clear_column st c).isSome = true ∧
    (∀ st2 tr, clear_column st c = some (st2, tr) →
      ∀ k, k < 8 →
        (st2.buf.getD k 0).testBit (7 - c) = false ∧
        (∀ j, j < 8 → j ≠ 7 - c →
          (st2.buf.getD k 0).testBit j = (st.buf.getD k 0).testBit j)) := by
  refine ⟨?_, ?_, ?_, ?_⟩
  · rw [set_column_eq st c 0xFF hc (by norm_num) h8 hb]
    rfl
  · intro st2 tr h k hk
    rw [set_column_eq st c 0xFF hc (by norm_num) h8 hb] at h
    injection h with h'
    injection h' with h1 h2
    subst h1
    show ((List.range 8).map fun k =>
        clearbit (st.buf.getD k 0) (0x80 >>> c) ||| colbit c 0xFF k).getD k 0
        &&& (0x80 >>> c) = 0x80 >>> c
    rw [getD_range_map _ k hk, or_and_right_nat,
      clearbit_and_mask c hc _ (getD_bound st.buf hb k (by omega)),
      Nat.zero_or]
    exact colbit_255_mask c hc k hk
  · rw [clear_column_eq st c h8 hb]
    rfl
  · intro st2 tr h k hk
    rw [clear_column_eq st c h8 hb] at h
    injection h with h'
    injection h' with h1 h2
    subst h1
    have hx : st.buf.getD k 0 < 256 := getD_bound st.buf hb k (by omega)
    constructor
    · show (((st.buf.map fun v => clearbit v (0x80 >>> c)).getD
          k 0).testBit (7 - c)) = false
      rw [getD_map_lt _ st.buf k (by omega)]
      exact clearbit_clears c hc _ hx
    · intro j hj hne
      show (((st.buf.map fun v => clearbit v (0x80 >>> c)).getD
          k 0).testBit j) = (st.buf.getD k 0).testBit j
      rw [getD_map_lt _ st.buf k (by omega)]
      exact clearbit_other c hc _ hx j hj hne

/-- C5 witness: column 2 of a live state. -/
theorem C5_witness :
    (set_column st1 2 0xFF).isSome = true ∧
    (clear_column st1 2).isSome = true :=
  ⟨(C5_column_ops st1 rfl (by decide) 2 (by norm_num)).1,
   (C5_column_ops st1 rfl (by decide) 2 (by norm_num)).2.2.1⟩

set_option maxRecDepth 8192 in
/-- C4: after `set_column(3, B)`, reading a byte back out of column 3
(row `k` contributing bit `0x80 >> k`) reproduces `B`, for every byte `B`. -/
theorem C4_roundtrip (st : Matrix8x8) (h8 : st.buf.length = 8)
    (hb : ∀ b ∈ st.buf, b < 256) (B : Nat) (hB : B < 256) :
    (set_column st 3 B).isSome = true ∧
    (∀ st2 tr, set_column st 3 B = some (st2, tr) →
      column_readback st2.buf 3 = B) := by
  constructor
  · rw [set_column_eq st 3 B (by norm_num) hB h8 hb]
    rfl
  · intro st2 tr h
    rw [set_column_eq st 3 B (by norm_num) hB h8 hb] at h
    injection h with h'
    injection h' with h1 h2
    subst h1
    show column_readback ((List.range 8).map fun k =>
        clearbit (st.buf.getD k 0) (0x80 >>> 3) ||| colbit 3 B k) 3 = B
    have g : ∀ k, k < 8 →
        (((List.map (fun k =>
            clearbit (st.buf.getD k 0) (0x80 >>> 3) ||| colbit 3 B k)
            [0, 1, 2, 3, 4, 5, 6, 7]).getD k 0 &&& (0x80 >>> 3)) ≠ 0)
          = ((B &&& (0x80 >>> k)) ≠ 0) := by
      intro k hk
      rw [show ([0, 1, 2, 3, 4, 5, 6, 7] : List Nat) = List.range 8 from
        range8_eq.symm]
      rw [getD_range_map _ k hk, or_and_right_nat,
        clearbit_and_mask 3 (by norm_num) _ (getD_bound st.buf hb k (by omega)),
        Nat.zero_or]
      exact colbit_and_mask 3 (by norm_num) B hB k hk
    simp only [column_readback, range8_eq, List.foldl_cons, List.foldl_nil]
    simp only [g 0 (by norm_num), g 1 (by norm_num), g 2 (by norm_num),
      g 3 (by norm_num), g 4 (by norm_num), g 5 (by norm_num),
      g 6 (by norm_num), g 7 (by norm_num)]
    clear g h2 h8 hb
    revert hB
    revert B
    decide

/-- C4 witness: the round trip at `B = 0xA5` on a live state. -/
theorem C4_witness : (set_column st1 3 0xA5).isSome = true :=
  (C4_roundtrip st1 rfl (by decide) 0xA5 (by norm_num)).1

end Matrix8x8Spec
